import Mathlib

/-!
Verification of the Boost Dash racing backend (`src/server.js`).

The embedding mirrors the source:
* `RacePlayer` / `RaceGame` are the per-player record and the `RaceGame`
  class state (constructor at `src/server.js:40-48`).
* `handlePlayerAction` is `RaceGame.handlePlayerAction`
  (`src/server.js:50-85`), split into the `switch` branch
  (`applyBranch`), the passive boost regeneration (`applyRegen`) and the
  win check, exactly in the order the source performs them.
* The lobby roster and race table (`players` / `activeRaces`, two JS
  `Map`s) are association lists with JS-`Map` insertion semantics.
* `Date.now()` is passed in explicitly as a natural-number timestamp.

JS numbers are modelled as rationals: every arithmetic operation the
server performs on progress/boost (`+2`, `+10`, `-20`, `+15`, `+0.5`,
`min 100`) is exact in binary floating point on the reachable range, so
the rational model is faithful.
-/

namespace BoostDash

/-- One player record inside a `RaceGame`
(`{ id, progress, boost, isDrifting, username }`, `src/server.js:42-43`).
`username` is `Option String` because the constructor reads
`players.get(id)?.username`, which can be `undefined`. -/
structure RacePlayer where
  id : String
  progress : ℚ
  boost : ℚ
  isDrifting : Bool
  username : Option String
  deriving DecidableEq

/-- The `RaceGame` class state (`src/server.js:40-48`). -/
structure RaceGame where
  roomId : String
  player1 : RacePlayer
  player2 : RacePlayer
  startTime : ℕ
  finished : Bool
  winner : Option String
  deriving DecidableEq

/-- A lobby roster entry (`players.set(socket.id, { id, username })`,
`src/server.js:101-104`); `username` is optional because the deferred
cleanup writes back `race.playerN.username`, which can be `undefined`. -/
structure LobbyPlayer where
  id : String
  username : Option String
  deriving DecidableEq

/-- JS `Map.get(k)` on an insertion-ordered association list. -/
def mapGet {α : Type} (m : List (String × α)) (k : String) : Option α :=
  m.lookup k

/-- JS `Map.set(k, v)`: overwrite in place if the key is present,
otherwise append. -/
def mapSet {α : Type} (m : List (String × α)) (k : String) (v : α) :
    List (String × α) :=
  if (m.lookup k).isSome then
    m.map (fun kv => if kv.1 = k then (k, v) else kv)
  else
    m ++ [(k, v)]

/-- JS `Map.delete(k)`. -/
def mapDelete {α : Type} (m : List (String × α)) (k : String) :
    List (String × α) :=
  m.filter (fun kv => kv.1 ≠ k)

/-- The `RaceGame` constructor (`src/server.js:41-48`): both players start
with `progress 0`, `boost 100`, not drifting, usernames snapshotted from
the current `players` map. -/
def mkRaceGame (players : List (String × LobbyPlayer)) (roomId : String)
    (player1Id player2Id : String) (now : ℕ) : RaceGame :=
  { roomId := roomId
    player1 := { id := player1Id, progress := 0, boost := 100,
                 isDrifting := false,
                 username := (mapGet players player1Id).bind (·.username) }
    player2 := { id := player2Id, progress := 0, boost := 100,
                 isDrifting := false,
                 username := (mapGet players player2Id).bind (·.username) }
    startTime := now
    finished := false
    winner := none }

/-- The `switch (action)` of `handlePlayerAction` (`src/server.js:53-70`),
applied to the resolved player record. An unrecognized action falls
through every `case` and leaves the record unchanged. -/
def applyBranch (action : String) (p : RacePlayer) : RacePlayer :=
  if action = "accelerate" then
    { p with progress := p.progress + 2 }
  else if action = "boost" then
    if 20 ≤ p.boost then
      { p with boost := p.boost - 20, progress := p.progress + 10 }
    else p
  else if action = "drift-start" then
    { p with isDrifting := true }
  else if action = "drift-end" then
    { p with isDrifting := false, boost := min 100 (p.boost + 15) }
  else p

/-- The passive boost regeneration step (`src/server.js:72-75`):
`if (!player.isDrifting) player.boost = Math.min(100, player.boost + 0.5)`. -/
def applyRegen (p : RacePlayer) : RacePlayer :=
  if p.isDrifting then p else { p with boost := min 100 (p.boost + 1/2) }

/-- The player record `handlePlayerAction` resolves `playerId` to
(`src/server.js:51`): `this.player1.id === playerId ? player1 : player2` —
note that a `playerId` matching neither also resolves to `player2`. -/
def resolvePlayer (g : RaceGame) (playerId : String) : RacePlayer :=
  if g.player1.id = playerId then g.player1 else g.player2

/-- Write the mutated record back into the slot `resolvePlayer` chose. -/
def writeResolved (g : RaceGame) (playerId : String) (p : RacePlayer) :
    RaceGame :=
  if g.player1.id = playerId then { g with player1 := p }
  else { g with player2 := p }

/-- `RaceGame.handlePlayerAction(playerId, action)`
(`src/server.js:50-85`): resolve the player, run the action branch, the
passive regen, then the win check
(`if (player.progress >= 1000 && !this.finished)`). Returns the new state
and the boolean the method returns (`true` exactly when this call set
`finished`). -/
def handlePlayerAction (g : RaceGame) (playerId action : String) :
    RaceGame × Bool :=
  let p := applyRegen (applyBranch action (resolvePlayer g playerId))
  let g1 := writeResolved g playerId p
  if 1000 ≤ p.progress ∧ g1.finished = false then
    ({ g1 with finished := true, winner := some playerId }, true)
  else
    (g1, false)

/-- Fold a whole sequence of `player-action` deliveries over a session. -/
def runActions (g : RaceGame) (calls : List (String × String)) : RaceGame :=
  calls.foldl (fun s c => (handlePlayerAction s c.1 c.2).1) g

/-- The module-level mutable state of the server: the `players` roster and
the `activeRaces` table (`src/server.js:35-36`). -/
structure ServerState where
  players : List (String × LobbyPlayer)
  activeRaces : List (String × RaceGame)
  deriving DecidableEq

/-- The deferred post-finish cleanup scheduled by the `player-action`
handler (`src/server.js:191-199`): delete the room from `activeRaces`,
then unconditionally `players.set` both participants back into the
roster using the usernames captured in the closed-over `race`. -/
def deferredCleanup (roomId : String) (race : RaceGame) (s : ServerState) :
    ServerState :=
  { activeRaces := mapDelete s.activeRaces roomId
    players :=
      mapSet
        (mapSet s.players race.player1.id
          { id := race.player1.id, username := race.player1.username })
        race.player2.id
        { id := race.player2.id, username := race.player2.username } }

/-- The room id minted by the `accept-challenge` handler
(`src/server.js:152`): the template literal `race_${Date.now()}`, with
`Date.now()` passed in as `now`. -/
def raceIdOf (now : ℕ) : String :=
  "race_" ++ Nat.repr now

/-- The race allocation performed by the `accept-challenge` handler
(`src/server.js:152-154`): mint `race_${Date.now()}` and run the
`RaceGame` constructor against the current roster. -/
def createRace (players : List (String × LobbyPlayer)) (now : ℕ)
    (player1Id player2Id : String) : RaceGame :=
  mkRaceGame players (raceIdOf now) player1Id player2Id now

/-- A two-player lobby used for concrete evaluations. -/
def lobbyAB : List (String × LobbyPlayer) :=
  [("p1", { id := "p1", username := some "alice" }),
   ("p2", { id := "p2", username := some "bob" })]

/-- A freshly constructed session between `p1` and `p2`. -/
def g0 : RaceGame := mkRaceGame lobbyAB "race_7" "p1" "p2" 7

/-- The session `g0` after `n` deliveries of `accelerate` attributed to
the non-participant id `ghost` (each one lands on `player2`). -/
def raceAfter (n : ℕ) : RaceGame :=
  { roomId := "race_7"
    player1 := { id := "p1", progress := 0, boost := 100,
                 isDrifting := false, username := some "alice" }
    player2 := { id := "p2", progress := 2 * (n : ℚ), boost := 100,
                 isDrifting := false, username := some "bob" }
    startTime := 7
    finished := false
    winner := none }

/-- The state reached when the 500th `ghost`-attributed `accelerate`
pushes `player2` to 1000 and the win check fires with
`winner = "ghost"`. -/
def raceDone : RaceGame :=
  { raceAfter 500 with
    player2 := { (raceAfter 500).player2 with progress := 1000 }
    finished := true
    winner := some "ghost" }

/-- A session already marked finished, used to exercise the
post-finish behaviour of `handlePlayerAction`. -/
def gFin : RaceGame := { g0 with finished := true, winner := some "p1" }

/-- A session in which `player2` already sits at 1000 progress while the
race is still unfinished. -/
def gReady : RaceGame := raceAfter 500

/-- A self-race: `accept-challenge` sent with `challengerId = socket.id`
creates a session whose two slots carry the same player id. -/
def gTwin : RaceGame := mkRaceGame lobbyAB "race_9" "p1" "p1" 9

/-- The server state after a participant disconnect has already torn the
session down: the race table is empty and neither participant is in the
roster. -/
def sEmpty : ServerState := { players := [], activeRaces := [] }

end BoostDash

namespace BoostDash

lemma applyBranch_id (action : String) (p : RacePlayer) :
    (applyBranch action p).id = p.id := by
  unfold applyBranch; split_ifs <;> rfl

lemma applyRegen_id (p : RacePlayer) : (applyRegen p).id = p.id := by
  unfold applyRegen; split_ifs <;> rfl

/-- The record `handlePlayerAction` leaves in the slot it resolved is the
action branch followed by the regen step applied to the resolved player. -/
lemma resolve_after (g : RaceGame) (playerId action : String) :
    resolvePlayer (handlePlayerAction g playerId action).1 playerId =
      applyRegen (applyBranch action (resolvePlayer g playerId)) := by
  unfold handlePlayerAction writeResolved resolvePlayer
  by_cases h : g.player1.id = playerId
  · simp only [h, if_true, if_pos]
    split <;> simp [applyRegen_id, applyBranch_id, h]
  · simp only [h, if_false, if_neg]
    split <;> simp [applyRegen_id, applyBranch_id, h]

lemma handle_ids (g : RaceGame) (playerId action : String) :
    (handlePlayerAction g playerId action).1.player1.id = g.player1.id ∧
    (handlePlayerAction g playerId action).1.player2.id = g.player2.id := by
  unfold handlePlayerAction writeResolved resolvePlayer
  by_cases h : g.player1.id = playerId
  · simp only [h, if_true, if_pos]
    split <;> simp [applyRegen_id, applyBranch_id, h]
  · simp only [h, if_false, if_neg]
    split <;> simp [applyRegen_id, applyBranch_id, h]

/-- C1: in `src/server.js:51` the ternary
`this.player1.id === playerId ? this.player1 : this.player2` resolves a
`playerId` matching neither participant to `player2`, so the call is not
a no-op: delivering `accelerate` attributed to the stranger id `ghost`
to a fresh `p1`-vs-`p2` session advances `player2` from 0 to 2 progress.
(The call still does not throw: `handlePlayerAction` is total.) -/
theorem foreign_playerId_mutates_player2 :
    g0.player1.id = "p1" ∧ g0.player2.id = "p2" ∧
    g0.player2.progress = 0 ∧
    (handlePlayerAction g0 "ghost" "accelerate").1.player2.progress = 2 := by
  refine ⟨rfl, rfl, rfl, ?_⟩
  simp [handlePlayerAction, writeResolved, resolvePlayer, applyBranch,
    applyRegen, g0, mkRaceGame]
  norm_num

/-- C3: per call, `finished` never reverts, `winner` is frozen once set,
post-finish calls are still accepted and return `false`, and the boolean
returned by `handlePlayerAction` is `true` exactly on the call that
flips `finished` from `false` to `true` (`src/server.js:78-84`). -/
theorem finish_transition_once (g : RaceGame) (playerId action : String) :
    (g.finished = true →
      (handlePlayerAction g playerId action).1.finished = true ∧
      (handlePlayerAction g playerId action).1.winner = g.winner ∧
      (handlePlayerAction g playerId action).2 = false) ∧
    ((handlePlayerAction g playerId action).2 = true ↔
      (g.finished = false ∧
        (handlePlayerAction g playerId action).1.finished = true)) := by
  unfold handlePlayerAction writeResolved
  by_cases h1 : g.player1.id = playerId <;>
    simp [h1] <;> split <;> simp_all

/-- Witness for C3 at a concrete finished session. -/
theorem finish_transition_once_witness :
    gFin.finished = true ∧
    (handlePlayerAction gFin "p1" "accelerate").2 = false ∧
    (handlePlayerAction gFin "p1" "accelerate").1.winner = some "p1" := by
  have h := (finish_transition_once gFin "p1" "accelerate").1 rfl
  exact ⟨rfl, h.2.2, h.2.1.trans rfl⟩

lemma regen_branch_boost_bounds (action : String) (p : RacePlayer)
    (hp0 : 0 ≤ p.boost) (hp100 : p.boost ≤ 100) :
    0 ≤ (applyRegen (applyBranch action p)).boost ∧
    (applyRegen (applyBranch action p)).boost ≤ 100 := by
  unfold applyBranch applyRegen
  split_ifs <;> simp_all <;> (try constructor) <;>
    linarith [le_min (show (0:ℚ) ≤ 100 by norm_num)
      (show (0:ℚ) ≤ p.boost + 15 by linarith)]

lemma boost_bounds_step (g : RaceGame) (playerId action : String)
    (h1 : 0 ≤ g.player1.boost ∧ g.player1.boost ≤ 100)
    (h2 : 0 ≤ g.player2.boost ∧ g.player2.boost ≤ 100) :
    (0 ≤ (handlePlayerAction g playerId action).1.player1.boost ∧
      (handlePlayerAction g playerId action).1.player1.boost ≤ 100) ∧
    (0 ≤ (handlePlayerAction g playerId action).1.player2.boost ∧
      (handlePlayerAction g playerId action).1.player2.boost ≤ 100) := by
  unfold handlePlayerAction writeResolved resolvePlayer
  by_cases hp1 : g.player1.id = playerId <;>
    simp [hp1] <;> split <;>
    simp_all <;>
    first
      | exact regen_branch_boost_bounds action g.player1 h1.1 h1.2
      | exact regen_branch_boost_bounds action g.player2 h2.1 h2.2

lemma boost_bounds_run (calls : List (String × String)) :
    ∀ g : RaceGame,
      (0 ≤ g.player1.boost ∧ g.player1.boost ≤ 100) →
      (0 ≤ g.player2.boost ∧ g.player2.boost ≤ 100) →
      (0 ≤ (runActions g calls).player1.boost ∧
        (runActions g calls).player1.boost ≤ 100) ∧
      (0 ≤ (runActions g calls).player2.boost ∧
        (runActions g calls).player2.boost ≤ 100) := by
  induction calls with
  | nil => intro g h1 h2; exact ⟨h1, h2⟩
  | cons c rest ih =>
    intro g h1 h2
    have hstep := boost_bounds_step g c.1 c.2 h1 h2
    simpa [runActions] using
      ih (handlePlayerAction g c.1 c.2).1 hstep.1 hstep.2

/-- C4: starting from the constructor (both boosts 100), after any
sequence of `handlePlayerAction` calls with arbitrary player ids and
actions, both players' boost values stay within `[0, 100]`
(`src/server.js:41-48`, `53-75`). Since the call list is arbitrary, this
bounds the boost after every prefix, i.e. after every call. -/
theorem boost_always_clamped (players : List (String × LobbyPlayer))
    (roomId player1Id player2Id : String) (now : ℕ)
    (calls : List (String × String)) :
    0 ≤ (runActions (mkRaceGame players roomId player1Id player2Id now)
          calls).player1.boost ∧
    (runActions (mkRaceGame players roomId player1Id player2Id now)
          calls).player1.boost ≤ 100 ∧
    0 ≤ (runActions (mkRaceGame players roomId player1Id player2Id now)
          calls).player2.boost ∧
    (runActions (mkRaceGame players roomId player1Id player2Id now)
          calls).player2.boost ≤ 100 := by
  have h := boost_bounds_run calls
    (mkRaceGame players roomId player1Id player2Id now)
    (by constructor <;> norm_num [mkRaceGame])
    (by constructor <;> norm_num [mkRaceGame])
  exact ⟨h.1.1, h.1.2, h.2.1, h.2.2⟩

end BoostDash

namespace BoostDash

lemma g0_eq : g0 = raceAfter 0 := by
  simp [g0, raceAfter, mkRaceGame, lobbyAB, mapGet, List.lookup]

lemma ghost_step (n : ℕ) (h : n ≤ 498) :
    handlePlayerAction (raceAfter n) "ghost" "accelerate" =
      (raceAfter (n + 1), false) := by
  have hlt : ¬ (1000 : ℚ) ≤ 2 * (n : ℚ) + 2 := by
    have : (n : ℚ) ≤ 498 := by exact_mod_cast h
    linarith
  simp [handlePlayerAction, resolvePlayer, writeResolved, applyBranch,
    applyRegen, raceAfter, hlt]
  ring

lemma ghost_run (n : ℕ) (h : n ≤ 499) :
    runActions g0 (List.replicate n ("ghost", "accelerate")) = raceAfter n := by
  induction n with
  | zero => simpa [runActions] using g0_eq
  | succ k ih =>
    have hk : k ≤ 498 := by omega
    rw [List.replicate_succ']
    have ih2 := ih (by omega)
    simp only [runActions] at ih2 ⊢
    rw [List.foldl_append, ih2]
    simp [ghost_step k hk]

lemma ghost_final :
    handlePlayerAction (raceAfter 499) "ghost" "accelerate" =
      (raceDone, true) := by
  have hge : (1000 : ℚ) ≤ 2 * (499 : ℚ) + 2 := by norm_num
  simp [handlePlayerAction, resolvePlayer, writeResolved, applyBranch,
    applyRegen, raceAfter, raceDone, hge]
  norm_num

/-- Counterexample to C2 as stated: because an unmatched `playerId`
resolves to `player2` (`src/server.js:51`), 500 `accelerate` deliveries
attributed to the stranger id `ghost` drive `player2` to 1000 and the
win check then sets `winner = "ghost"` — a finished session whose winner
is neither `player1.id` nor `player2.id`. -/
theorem winner_not_participant_ce :
    g0.player1.id = "p1" ∧ g0.player2.id = "p2" ∧
    (runActions g0 (List.replicate 500 ("ghost", "accelerate"))).finished
      = true ∧
    (runActions g0 (List.replicate 500 ("ghost", "accelerate"))).winner
      = some "ghost" ∧
    ("ghost" : String) ≠ "p1" ∧ ("ghost" : String) ≠ "p2" := by
  have h : (500 : ℕ) = 499 + 1 := by norm_num
  refine ⟨rfl, rfl, ?_, ?_, by decide, by decide⟩ <;>
  · rw [h, List.replicate_succ']
    simp only [runActions, List.foldl_append]
    have hr := ghost_run 499 (by omega)
    simp only [runActions] at hr
    rw [hr]
    simp [ghost_final, raceDone]

lemma handle_finish_cases (g : RaceGame) (playerId action : String) :
    ((handlePlayerAction g playerId action).1.finished = g.finished ∧
      (handlePlayerAction g playerId action).1.winner = g.winner) ∨
    ((handlePlayerAction g playerId action).1.finished = true ∧
      (handlePlayerAction g playerId action).1.winner = some playerId) := by
  unfold handlePlayerAction writeResolved
  by_cases h : g.player1.id = playerId <;> simp [h] <;> split <;> simp_all

lemma winv_run (a b : String) (calls : List (String × String)) :
    ∀ g : RaceGame, g.player1.id = a → g.player2.id = b →
      (g.finished = true → ∃ w, g.winner = some w ∧ (w = a ∨ w = b)) →
      (∀ c ∈ calls, c.1 = a ∨ c.1 = b) →
      ((runActions g calls).finished = true →
        ∃ w, (runActions g calls).winner = some w ∧ (w = a ∨ w = b)) := by
  induction calls with
  | nil => intro g h1 h2 h3 _; simpa [runActions] using h3
  | cons c rest ih =>
    intro g h1 h2 h3 hc
    have hids := handle_ids g c.1 c.2
    have hnext : (handlePlayerAction g c.1 c.2).1.finished = true →
        ∃ w, (handlePlayerAction g c.1 c.2).1.winner = some w ∧
          (w = a ∨ w = b) := by
      intro hf
      rcases handle_finish_cases g c.1 c.2 with ⟨he, hw⟩ | ⟨_, hw⟩
      · obtain ⟨w, hw2, hw3⟩ := h3 (he.symm.trans hf)
        exact ⟨w, hw.trans hw2, hw3⟩
      · exact ⟨c.1, hw, hc c (by simp)⟩
    have := ih (handlePlayerAction g c.1 c.2).1 (hids.1.trans h1)
      (hids.2.trans h2) hnext (fun d hd => hc d (by simp [hd]))
    simpa [runActions] using this

/-- C2 amended: for sequences in which every call's `playerId` is one of
the two participants, every finished session has a non-null winner equal
to `player1.id` or `player2.id` (`src/server.js:78-84`, constructor at
`41-48`). -/
theorem finished_winner_is_participant
    (players : List (String × LobbyPlayer))
    (roomId player1Id player2Id : String) (now : ℕ)
    (calls : List (String × String))
    (hcalls : ∀ c ∈ calls, c.1 = player1Id ∨ c.1 = player2Id) :
    (runActions (mkRaceGame players roomId player1Id player2Id now)
        calls).finished = true →
    ∃ w, (runActions (mkRaceGame players roomId player1Id player2Id now)
        calls).winner = some w ∧ (w = player1Id ∨ w = player2Id) :=
  winv_run player1Id player2Id calls
    (mkRaceGame players roomId player1Id player2Id now) rfl rfl
    (by simp [mkRaceGame]) hcalls

/-- Witness for the amended C2 at a concrete session and call list. -/
theorem finished_winner_is_participant_witness :
    (∀ c ∈ ([("p1", "accelerate")] : List (String × String)),
      c.1 = "p1" ∨ c.1 = "p2") ∧
    ((runActions (mkRaceGame lobbyAB "race_7" "p1" "p2" 7)
        [("p1", "accelerate")]).finished = true →
      ∃ w, (runActions (mkRaceGame lobbyAB "race_7" "p1" "p2" 7)
        [("p1", "accelerate")]).winner = some w ∧
        (w = "p1" ∨ w = "p2")) :=
  ⟨by simp,
   finished_winner_is_participant lobbyAB "race_7" "p1" "p2" 7
     [("p1", "accelerate")] (by simp)⟩

end BoostDash

namespace BoostDash

lemma applyRegen_progress (p : RacePlayer) :
    (applyRegen p).progress = p.progress := by
  unfold applyRegen; split_ifs <;> rfl

lemma applyRegen_isDrifting (p : RacePlayer) :
    (applyRegen p).isDrifting = p.isDrifting := by
  unfold applyRegen; split_ifs <;> rfl

lemma writeResolved_finished (g : RaceGame) (playerId : String)
    (p : RacePlayer) : (writeResolved g playerId p).finished = g.finished := by
  unfold writeResolved; split_ifs <;> rfl

/-- C5: the `boost` action for a participating player
(`src/server.js:57-62`): with at least 20 boost, the `switch` branch
takes exactly 20 boost and grants exactly 10 progress before the regen
step; with less than 20 boost the branch is a silent no-op and only the
passive regen applies. The post-call boost is also given in full. -/
theorem boost_action_effects (g : RaceGame) (playerId : String)
    (hpart : playerId = g.player1.id ∨ playerId = g.player2.id) :
    (20 ≤ (resolvePlayer g playerId).boost →
      applyBranch "boost" (resolvePlayer g playerId) =
        { resolvePlayer g playerId with
            boost := (resolvePlayer g playerId).boost - 20,
            progress := (resolvePlayer g playerId).progress + 10 } ∧
      (resolvePlayer (handlePlayerAction g playerId "boost").1
          playerId).progress =
        (resolvePlayer g playerId).progress + 10 ∧
      (resolvePlayer (handlePlayerAction g playerId "boost").1
          playerId).boost =
        (if (resolvePlayer g playerId).isDrifting
         then (resolvePlayer g playerId).boost - 20
         else min 100 ((resolvePlayer g playerId).boost - 20 + 1/2))) ∧
    ((resolvePlayer g playerId).boost < 20 →
      applyBranch "boost" (resolvePlayer g playerId) =
        resolvePlayer g playerId ∧
      (resolvePlayer (handlePlayerAction g playerId "boost").1
          playerId).progress =
        (resolvePlayer g playerId).progress ∧
      (resolvePlayer (handlePlayerAction g playerId "boost").1
          playerId).boost =
        (if (resolvePlayer g playerId).isDrifting
         then (resolvePlayer g playerId).boost
         else min 100 ((resolvePlayer g playerId).boost + 1/2))) := by
  constructor <;> intro hb <;>
    rw [resolve_after] <;>
    unfold applyBranch applyRegen <;>
    split_ifs <;> simp_all <;> linarith

/-- Witness for C5 at a fresh session (boost 100 ≥ 20). -/
theorem boost_action_effects_witness :
    ("p1" = g0.player1.id ∨ "p1" = g0.player2.id) ∧
    (20 ≤ (resolvePlayer g0 "p1").boost) ∧
    (resolvePlayer (handlePlayerAction g0 "p1" "boost").1 "p1").progress =
      (resolvePlayer g0 "p1").progress + 10 :=
  ⟨Or.inl rfl,
   by norm_num [resolvePlayer, g0, mkRaceGame],
   ((boost_action_effects g0 "p1" (Or.inl rfl)).1
     (by norm_num [resolvePlayer, g0, mkRaceGame])).2.1⟩

/-- C6: drift mechanics for a participating player
(`src/server.js:63-75`): `drift-end` clears the drift flag, banks +15
boost and then also receives the +0.5 passive regen (both clamped);
`drift-start` sets the flag and suppresses the regen, leaving boost
unchanged; and for every action the +0.5 regen applies exactly when the
player is not drifting at the end of the action branch. -/
theorem drift_regen_effects (g : RaceGame) (playerId : String)
    (hpart : playerId = g.player1.id ∨ playerId = g.player2.id) :
    (resolvePlayer (handlePlayerAction g playerId "drift-end").1
        playerId).isDrifting = false ∧
    (resolvePlayer (handlePlayerAction g playerId "drift-end").1
        playerId).boost =
      min 100 (min 100 ((resolvePlayer g playerId).boost + 15) + 1/2) ∧
    (resolvePlayer (handlePlayerAction g playerId "drift-start").1
        playerId).isDrifting = true ∧
    (resolvePlayer (handlePlayerAction g playerId "drift-start").1
        playerId).boost = (resolvePlayer g playerId).boost ∧
    (∀ action : String,
      (resolvePlayer (handlePlayerAction g playerId action).1
          playerId).boost =
        (if (applyBranch action (resolvePlayer g playerId)).isDrifting
         then (applyBranch action (resolvePlayer g playerId)).boost
         else min 100
           ((applyBranch action (resolvePlayer g playerId)).boost + 1/2))) := by
  refine ⟨?_, ?_, ?_, ?_, ?_⟩
  · rw [resolve_after]; unfold applyBranch applyRegen; simp
  · rw [resolve_after]; unfold applyBranch applyRegen; simp
  · rw [resolve_after]; unfold applyBranch applyRegen; simp
  · rw [resolve_after]; unfold applyBranch applyRegen; simp
  · intro action
    rw [resolve_after]
    unfold applyRegen
    split_ifs <;> simp_all

/-- Witness for C6 at a fresh session. -/
theorem drift_regen_effects_witness :
    ("p1" = g0.player1.id ∨ "p1" = g0.player2.id) ∧
    (resolvePlayer (handlePlayerAction g0 "p1" "drift-end").1
        "p1").isDrifting = false ∧
    (resolvePlayer (handlePlayerAction g0 "p1" "drift-start").1
        "p1").boost = (resolvePlayer g0 "p1").boost :=
  ⟨Or.inl rfl,
   (drift_regen_effects g0 "p1" (Or.inl rfl)).1,
   (drift_regen_effects g0 "p1" (Or.inl rfl)).2.2.2.1⟩

/-- Counterexample to C9 as stated: `accept-challenge` sent with
`challengerId = socket.id` builds a session whose two slots carry the
same id (`gTwin`), and there a call with `playerId = player2.id` mutates
`player1` (the ternary at `src/server.js:51` picks `player1` first). -/
theorem self_race_frame_violation :
    gTwin.player2.id = "p1" ∧
    gTwin.player1.progress = 0 ∧
    (handlePlayerAction gTwin "p1" "accelerate").1.player1.progress = 2 := by
  refine ⟨rfl, rfl, ?_⟩
  simp [handlePlayerAction, writeResolved, resolvePlayer, applyBranch,
    applyRegen, gTwin, mkRaceGame]
  norm_num

/-- C9 amended: a call with `playerId = player1.id` never touches
`player2`; a call with `playerId = player2.id` never touches `player1`
provided the two ids differ; `roomId` and `startTime` are unchanged by
every call (`src/server.js:50-85`). -/
theorem action_frame_effects (g : RaceGame) (playerId action : String) :
    (playerId = g.player1.id →
      (handlePlayerAction g playerId action).1.player2 = g.player2) ∧
    (playerId = g.player2.id → g.player1.id ≠ g.player2.id →
      (handlePlayerAction g playerId action).1.player1 = g.player1) ∧
    (handlePlayerAction g playerId action).1.roomId = g.roomId ∧
    (handlePlayerAction g playerId action).1.startTime = g.startTime := by
  refine ⟨fun hp => ?_, fun hp hne => ?_, ?_, ?_⟩
  · unfold handlePlayerAction writeResolved
    simp only [hp.symm, if_true, if_pos]
    split <;> rfl
  · have h : ¬ (g.player1.id = playerId) := fun hcontra =>
      hne (hcontra.trans hp)
    unfold handlePlayerAction writeResolved
    simp only [h, if_false, if_neg, not_false_iff]
    split <;> rfl
  · unfold handlePlayerAction writeResolved
    by_cases h : g.player1.id = playerId <;>
      simp only [h, if_true, if_false, if_pos, if_neg, not_false_iff] <;>
      split <;> rfl
  · unfold handlePlayerAction writeResolved
    by_cases h : g.player1.id = playerId <;>
      simp only [h, if_true, if_false, if_pos, if_neg, not_false_iff] <;>
      split <;> rfl

/-- Witness for the amended C9 at a fresh two-player session. -/
theorem action_frame_effects_witness :
    ("p1" = g0.player1.id) ∧
    (handlePlayerAction g0 "p1" "accelerate").1.player2 = g0.player2 :=
  ⟨rfl, (action_frame_effects g0 "p1" "accelerate").1 rfl⟩

/-- C10: an unrecognized action delivered by a participating player is
not a pure no-op (`src/server.js:53-84`): every `switch` branch is
skipped, progress and the drift flag are unchanged, yet the +0.5 passive
regen still applies when the player is not drifting, and the win check
still runs — so it can itself fire the finish transition when the
player's progress already sits at ≥ 1000. The call never throws:
`handlePlayerAction` is total. -/
theorem unrecognized_action_effects (g : RaceGame) (playerId action : String)
    (hpart : playerId = g.player1.id ∨ playerId = g.player2.id)
    (ha : action ≠ "accelerate") (hb : action ≠ "boost")
    (hc : action ≠ "drift-start") (hd : action ≠ "drift-end") :
    applyBranch action (resolvePlayer g playerId) =
      resolvePlayer g playerId ∧
    (resolvePlayer (handlePlayerAction g playerId action).1
        playerId).progress = (resolvePlayer g playerId).progress ∧
    (resolvePlayer (handlePlayerAction g playerId action).1
        playerId).isDrifting = (resolvePlayer g playerId).isDrifting ∧
    (resolvePlayer (handlePlayerAction g playerId action).1
        playerId).boost =
      (if (resolvePlayer g playerId).isDrifting
       then (resolvePlayer g playerId).boost
       else min 100 ((resolvePlayer g playerId).boost + 1/2)) ∧
    ((1000 ≤ (resolvePlayer g playerId).progress ∧ g.finished = false) →
      (handlePlayerAction g playerId action).1.finished = true ∧
      (handlePlayerAction g playerId action).1.winner = some playerId ∧
      (handlePlayerAction g playerId action).2 = true) := by
  have hbr : applyBranch action (resolvePlayer g playerId) =
      resolvePlayer g playerId := by
    unfold applyBranch; simp [ha, hb, hc, hd]
  refine ⟨hbr, ?_, ?_, ?_, ?_⟩
  · rw [resolve_after, hbr, applyRegen_progress]
  · rw [resolve_after, hbr, applyRegen_isDrifting]
  · rw [resolve_after, hbr]; unfold applyRegen; split_ifs <;> simp_all
  · intro hwin
    unfold handlePlayerAction
    have hcond : 1000 ≤ (applyRegen (applyBranch action
        (resolvePlayer g playerId))).progress ∧
        (writeResolved g playerId (applyRegen (applyBranch action
          (resolvePlayer g playerId)))).finished = false := by
      rw [hbr, applyRegen_progress, writeResolved_finished]
      exact hwin
    simp [hcond]

/-- Witness for C10: a participant at 1000 progress sending the
unrecognized action `jump` fires the finish transition. -/
theorem unrecognized_action_effects_witness :
    ("p2" = gReady.player1.id ∨ "p2" = gReady.player2.id) ∧
    ("jump" : String) ≠ "accelerate" ∧ ("jump" : String) ≠ "boost" ∧
    ("jump" : String) ≠ "drift-start" ∧ ("jump" : String) ≠ "drift-end" ∧
    (handlePlayerAction gReady "p2" "jump").1.finished = true ∧
    (handlePlayerAction gReady "p2" "jump").2 = true := by
  have h := unrecognized_action_effects gReady "p2" "jump"
    (Or.inr rfl) (by decide) (by decide) (by decide) (by decide)
  have hw := h.2.2.2.2
    (by constructor
        · simp [resolvePlayer, gReady, raceAfter]
          norm_num
        · rfl)
  exact ⟨Or.inr rfl, by decide, by decide, by decide, by decide,
    hw.1, hw.2.2⟩

end BoostDash

namespace BoostDash

/-- C7: the deferred cleanup callback (`src/server.js:192-198`) firing
after a disconnect has already torn the session down is NOT a no-op on
the roster: `activeRaces.delete(roomId)` is harmless, but the two
unconditional `players.set(...)` calls re-add both participants —
including the one who disconnected — to the (here empty) roster. -/
theorem deferred_cleanup_not_noop :
    sEmpty.activeRaces = [] ∧ sEmpty.players = [] ∧
    (deferredCleanup "race_7" g0 sEmpty).activeRaces = [] ∧
    (deferredCleanup "race_7" g0 sEmpty).players =
      [("p1", { id := "p1", username := some "alice" }),
       ("p2", { id := "p2", username := some "bob" })] :=
  ⟨rfl, rfl, rfl, rfl⟩

lemma toDigitsCore_acc (b f : ℕ) :
    ∀ (n : ℕ) (l : List Char),
      Nat.toDigitsCore b f n l = Nat.toDigitsCore b f n [] ++ l := by
  induction f with
  | zero => intro n l; simp [Nat.toDigitsCore]
  | succ f ih =>
    intro n l
    simp only [Nat.toDigitsCore]
    by_cases h : n / b = 0
    · simp [h]
    · rw [if_neg h, if_neg h,
        ih (n / b) (Nat.digitChar (n % b) :: l),
        ih (n / b) [Nat.digitChar (n % b)]]
      simp

lemma toDigitsCore_eq_digits (n : ℕ) :
    ∀ f : ℕ, n < f → 0 < n →
      Nat.toDigitsCore 10 f n [] =
        ((Nat.digits 10 n).map Nat.digitChar).reverse := by
  induction n using Nat.strong_induction_on with
  | _ n ih =>
    intro f hf hn
    match f, hf with
    | f + 1, hf =>
      simp only [Nat.toDigitsCore]
      by_cases h : n / 10 = 0
      · rw [if_pos h, Nat.digits_def' (by norm_num : (1:ℕ) < 10) hn, h]
        simp
      · rw [if_neg h, toDigitsCore_acc]
        have hdiv_lt : n / 10 < n := Nat.div_lt_self hn (by norm_num)
        have hdiv_pos : 0 < n / 10 := Nat.pos_of_ne_zero h
        rw [ih (n / 10) hdiv_lt f (by omega) hdiv_pos,
          Nat.digits_def' (by norm_num : (1:ℕ) < 10) hn]
        simp

lemma digitChar_inj (a b : ℕ) (ha : a < 10) (hb : b < 10)
    (h : Nat.digitChar a = Nat.digitChar b) : a = b := by
  interval_cases a <;> interval_cases b <;>
    first
      | rfl
      | (exfalso; revert h; decide)

lemma map_digitChar_inj : ∀ (l1 l2 : List ℕ),
    (∀ x ∈ l1, x < 10) → (∀ x ∈ l2, x < 10) →
    l1.map Nat.digitChar = l2.map Nat.digitChar → l1 = l2 := by
  intro l1
  induction l1 with
  | nil =>
    intro l2 _ _ h
    cases l2 with
    | nil => rfl
    | cons b t2 => simp at h
  | cons a t ih =>
    intro l2 h1 h2 h
    cases l2 with
    | nil => simp at h
    | cons b t2 =>
      simp only [List.map_cons, List.cons.injEq] at h
      have hab := digitChar_inj a b (h1 a (by simp)) (h2 b (by simp)) h.1
      rw [hab, ih t2 (fun x hx => h1 x (by simp [hx]))
        (fun x hx => h2 x (by simp [hx])) h.2]

lemma toDigits_pos_ne_zero (n : ℕ) (hn : 0 < n) :
    Nat.toDigits 10 n ≠ Nat.toDigits 10 0 := by
  unfold Nat.toDigits
  rw [toDigitsCore_eq_digits n (n + 1) (by omega) hn]
  intro hcontra
  have hrev : ((Nat.digits 10 n).map Nat.digitChar).reverse = ['0'] := by
    simpa [Nat.toDigitsCore] using hcontra
  have hmap : (Nat.digits 10 n).map Nat.digitChar = ['0'] := by
    have := congrArg List.reverse hrev
    simpa using this
  have hdig : Nat.digits 10 n = [0] := by
    refine map_digitChar_inj (Nat.digits 10 n) [0]
      (fun x hx => Nat.digits_lt_base (by norm_num) hx)
      (by intro x hx; simp at hx; omega) ?_
    simpa [Nat.digitChar] using hmap
  have h0 := Nat.ofDigits_digits 10 n
  rw [hdig] at h0
  simp [Nat.ofDigits] at h0
  omega

/-- `Nat.repr` is injective: distinct numbers have distinct decimal
string representations. -/
lemma natRepr_inj (m n : ℕ) (h : Nat.repr m = Nat.repr n) : m = n := by
  have hd : Nat.toDigits 10 m = Nat.toDigits 10 n := by
    have hdata := congrArg String.data h
    simpa [Nat.repr, List.asString] using hdata
  rcases Nat.eq_zero_or_pos m with hm | hm
  · rcases Nat.eq_zero_or_pos n with hn | hn
    · omega
    · exact absurd (hm ▸ hd).symm (toDigits_pos_ne_zero n hn)
  · rcases Nat.eq_zero_or_pos n with hn | hn
    · exact absurd (hn ▸ hd) (toDigits_pos_ne_zero m hm)
    · have h1 := toDigitsCore_eq_digits m (m + 1) (by omega) hm
      have h2 := toDigitsCore_eq_digits n (n + 1) (by omega) hn
      unfold Nat.toDigits at hd
      rw [h1, h2] at hd
      have hrev := List.reverse_injective hd
      have hdig := map_digitChar_inj _ _
        (fun x hx => Nat.digits_lt_base (by norm_num) hx)
        (fun x hx => Nat.digits_lt_base (by norm_num) hx) hrev
      exact Nat.digits.injective 10 hdig

/-- Counterexample to C8 as stated: `roomId` is `race_${Date.now()}`
(`src/server.js:152`), so two different `createRace` calls that observe
the same millisecond — here between different player pairs — receive the
very same `roomId`. -/
theorem same_millisecond_roomId_collision :
    (createRace lobbyAB 5 "p1" "p2").roomId =
      (createRace [] 5 "c" "d").roomId ∧
    (("p1", "p2") : String × String) ≠ ("c", "d") :=
  ⟨rfl, by decide⟩

/-- C8 amended: `createRace` snapshots each participant's username from
the roster passed at creation time, and two `createRace` calls receive
distinct `roomId`s whenever their `Date.now()` readings differ (same
millisecond ⇒ collision, as the counterexample shows). -/
theorem createRace_roomId_username
    (ps qs : List (String × LobbyPlayer)) (t1 t2 : ℕ)
    (a b c d : String) (hne : t1 ≠ t2) :
    (createRace ps t1 a b).roomId ≠ (createRace qs t2 c d).roomId ∧
    (createRace ps t1 a b).player1.username =
      (mapGet ps a).bind LobbyPlayer.username ∧
    (createRace ps t1 a b).player2.username =
      (mapGet ps b).bind LobbyPlayer.username := by
  refine ⟨?_, rfl, rfl⟩
  intro hcontra
  apply hne
  apply natRepr_inj
  have hid : raceIdOf t1 = raceIdOf t2 := hcontra
  unfold raceIdOf at hid
  have hdata := congrArg String.data hid
  simp only [String.data_append] at hdata
  exact String.ext (List.append_cancel_left hdata)

/-- Witness for the amended C8 at two distinct timestamps. -/
theorem createRace_roomId_username_witness :
    (5 : ℕ) ≠ 6 ∧
    (createRace lobbyAB 5 "p1" "p2").roomId ≠
      (createRace lobbyAB 6 "p1" "p2").roomId :=
  ⟨by decide,
   (createRace_roomId_username lobbyAB lobbyAB 5 6 "p1" "p2" "p1" "p2"
     (by decide)).1⟩

end BoostDash
